import Mathlib

/-!
Verification of the lightning-offline payment-channel core: a shallow
embedding of src/channel.rs (ChannelManager), src/crypto.rs (KeyManager)
and src/storage.rs (Database), with the external effects (UUID generation,
clock, SQLite success/failure) made explicit as oracle arguments.
All u64 arithmetic is modelled on Nat with explicit wrapping modulo 2^64
where the Rust code performs unchecked arithmetic.
-/

namespace LightningOffline

instance instDecEqExcept {ε α : Type} [DecidableEq ε] [DecidableEq α] :
    DecidableEq (Except ε α)
  | .error a, .error b =>
      if h : a = b then isTrue (h ▸ rfl)
      else isFalse (fun hh => h (by cases hh; rfl))
  | .error _, .ok _ => isFalse (fun hh => by cases hh)
  | .ok _, .error _ => isFalse (fun hh => by cases hh)
  | .ok a, .ok b =>
      if h : a = b then isTrue (h ▸ rfl)
      else isFalse (fun hh => h (by cases hh; rfl))

/-- 2^64, the u64 wrap-around modulus, written as a literal. -/
def W : Nat := 18446744073709551616

/-- Wrapping u64 addition (Rust release-mode `+=` on u64). -/
def wadd (a b : Nat) : Nat := (a + b) % W

/-- Wrapping u64 subtraction (Rust release-mode `-=` on u64):
for a, b < W this is a - b when b ≤ a and a + 2^64 - b otherwise. -/
def wsub (a b : Nat) : Nat := (a + (W - b % W)) % W

/-- src/channel.rs PaymentChannel. `created_at` is an abstract clock tick. -/
structure PaymentChannel where
  id : String
  peer_node_id : String
  funding_txid : String
  capacity : Nat
  my_balance : Nat
  peer_balance : Nat
  sequence_number : Nat
  is_open : Bool
  created_at : Nat
  multisig_address : String
deriving DecidableEq

/-- src/channel.rs CommitmentTransaction. -/
structure CommitmentTransaction where
  id : String
  channel_id : String
  sequence : Nat
  my_balance : Nat
  peer_balance : Nat
  raw_tx : String
  signature : String
  created_at : Nat
deriving DecidableEq

/-- src/channel.rs PaymentRecord. -/
structure PaymentRecord where
  id : String
  channel_id : String
  amount : Nat
  direction : String
  sequence : Nat
  timestamp : Nat
  is_offline : Bool
deriving DecidableEq

/-- A compressed secp256k1 public key, represented by its byte string. -/
structure PubKey where
  bytes : List Nat
deriving DecidableEq

/-- Modelled from the spec (section 4.1): the external secp256k1 crate's
deterministic ECDSA is idealized as a symbolic signature scheme; a
signature records the signing secret key and the digest it covers. -/
structure Signature where
  signer : Nat
  digest : List Nat
deriving DecidableEq

/-- Modelled from the spec: SHA-256 (external sha2 crate) idealized as a
collision-free digest, represented symbolically by the message itself. -/
def sha256 (msg : List Nat) : List Nat := msg

/-- Modelled from the spec: the public key derived from a secret key by the
external secp256k1 crate, symbolic compressed encoding. -/
def pubkeyOf (sk : Nat) : PubKey := ⟨[2, sk]⟩

/-- Bytes of a string, ASCII model of UTF-8 (all strings here are ASCII). -/
def strBytes (s : String) : List Nat := s.toList.map Char.toNat

/-- Whether the first list is a prefix of the second (Bool-valued). -/
def bytesLeadWith : List Nat → List Nat → Bool
  | [], _ => true
  | _ :: _, [] => false
  | a :: as, b :: bs => a == b && bytesLeadWith as bs

/-- Rust str::starts_with, on the ASCII byte model. -/
def strStartsWith (s p : String) : Bool := bytesLeadWith (strBytes p) (strBytes s)

/-- The first n characters of a string (Rust slice s[..n] on ASCII). -/
def strTake (s : String) (n : Nat) : String := ⟨s.toList.take n⟩

/-- String length (character = byte count on the ASCII model). -/
def strLen (s : String) : Nat := s.toList.length

/-- src/crypto.rs KeyManager: key pair plus derived identifiers.
The secp256k1 context field carries no state and is dropped. -/
structure KeyManager where
  private_key : Nat
  public_key : PubKey
  node_id : String
  bitcoin_address : String
deriving DecidableEq

/-- src/crypto.rs KeyManager::new with the OS randomness (the 32 secret-key
bytes) abstracted to the Nat `sk`; node_id = hex(sha256(pubkey serialize))
and the p2wpkh address are symbolic renderings of the same derivations. -/
def KeyManager.ofSecret (sk : Nat) : KeyManager :=
  { private_key := sk
    public_key := pubkeyOf sk
    node_id := "node_" ++ toString (sha256 (pubkeyOf sk).bytes)
    bitcoin_address := "bcrt1_p2wpkh_" ++ toString (pubkeyOf sk).bytes }

/-- src/crypto.rs KeyManager::sign_message: hash then sign. The Result
error path (Message::from_digest_slice on a wrong-length digest) is
unreachable because a SHA-256 digest always has 32 bytes, so the model
is total. -/
def KeyManager.sign_message (km : KeyManager) (msg : List Nat) : Signature :=
  ⟨km.private_key, sha256 msg⟩

/-- src/crypto.rs KeyManager::verify_signature: hash, then verify against
the given public key; total, returns a Bool. -/
def KeyManager.verify_signature (_km : KeyManager) (msg : List Nat)
    (sig : Signature) (pubkey : PubKey) : Bool :=
  decide (pubkey = pubkeyOf sig.signer) && decide (sig.digest = sha256 msg)

/-- The script push of a 33-byte compressed key (opcode 0x21 then the key). -/
def pushKeyBytes (pk : PubKey) : List Nat := 33 :: pk.bytes

/-- The 2-of-2 OP_CHECKMULTISIG script of src/crypto.rs
create_multisig_address: OP_PUSHNUM_2 (0x52), both keys, OP_PUSHNUM_2,
OP_CHECKMULTISIG (0xae). -/
def multisigScript (selfPk otherPk : PubKey) : List Nat :=
  82 :: (pushKeyBytes selfPk ++ pushKeyBytes otherPk ++ [82, 174])

/-- The regtest p2wsh address of a witness script; the bech32 hash encoding
(external bitcoin crate) is abstracted to an injective rendering. -/
def p2wshAddress (script : List Nat) : String :=
  "bcrt1_p2wsh_" ++ toString script

/-- src/crypto.rs KeyManager::create_multisig_address; the code's Result is
always Ok, so the model is total. -/
def KeyManager.create_multisig_address (km : KeyManager) (other : PubKey) : String :=
  p2wshAddress (multisigScript km.public_key other)

/-- One hex digit (on a character code), as the hex crate decodes it. -/
def hexDigit (n : Nat) : Option Nat :=
  if 48 ≤ n ∧ n ≤ 57 then some (n - 48)
  else if 97 ≤ n ∧ n ≤ 102 then some (n - 87)
  else if 65 ≤ n ∧ n ≤ 70 then some (n - 55)
  else none

/-- hex::decode on a character-code list: pairs of hex digits to bytes,
failing on an odd length or a non-hex character. -/
def hexDecodeChars : List Nat → Option (List Nat)
  | [] => some []
  | [_] => none
  | hi :: lo :: rest => do
      let h ← hexDigit hi
      let l ← hexDigit lo
      let r ← hexDecodeChars rest
      pure ((h * 16 + l) :: r)

/-- hex::decode on a string. -/
def hexDecode (s : String) : Option (List Nat) := hexDecodeChars (strBytes s)

/-- Modelled from the spec: secp256k1 PublicKey::from_slice (external
crate); accepts 33-byte compressed encodings (leading byte 2 or 3);
on-curve validity is abstracted away. -/
def PublicKey.from_slice (bytes : List Nat) : Option PubKey :=
  if bytes.length = 33 ∧ (bytes.head? = some 2 ∨ bytes.head? = some 3)
  then some ⟨bytes⟩ else none

/-- The anyhow error taxonomy of src/channel.rs, one constructor per
distinct error message; dbError stands for any sqlx failure bubbled up
from src/storage.rs. -/
inductive ChError where
  | channelNotFound
  | channelNotOpen
  | insufficientBalance
  | invalidPubkeyFormat
  | invalidHexEncoding
  | dbError
deriving DecidableEq

/-- The SQLite store of src/storage.rs: one table per entity, inserts
append, updates rewrite matching rows. -/
structure Database where
  channels : List PaymentChannel
  commitments : List CommitmentTransaction
  payments : List PaymentRecord
deriving DecidableEq

/-- storage.rs save_channel: INSERT INTO channels. -/
def Database.save_channel (db : Database) (ch : PaymentChannel) : Database :=
  { db with channels := db.channels ++ [ch] }

/-- storage.rs update_channel: UPDATE channels SET my_balance, peer_balance,
sequence_number, is_open WHERE id matches (only those four columns). -/
def Database.update_channel (db : Database) (ch : PaymentChannel) : Database :=
  { db with channels := db.channels.map (fun r =>
      if r.id = ch.id then
        { r with my_balance := ch.my_balance, peer_balance := ch.peer_balance,
                 sequence_number := ch.sequence_number, is_open := ch.is_open }
      else r) }

/-- storage.rs save_commitment_transaction: INSERT. -/
def Database.save_commitment_transaction (db : Database)
    (c : CommitmentTransaction) : Database :=
  { db with commitments := db.commitments ++ [c] }

/-- storage.rs save_payment: INSERT INTO payments. -/
def Database.save_payment (db : Database) (p : PaymentRecord) : Database :=
  { db with payments := db.payments ++ [p] }

/-- storage.rs get_channel_payments: SELECT ... WHERE channel_id = ?
(the ORDER BY timestamp does not matter for the claims below). -/
def Database.get_channel_payments (db : Database) (cid : String) :
    List PaymentRecord :=
  db.payments.filter (fun p => p.channel_id = cid)

/-- Association-list view of a HashMap String key space: lookup. -/
def assocGet {β : Type} : List (String × β) → String → Option β
  | [], _ => none
  | (k2, v) :: rest, k => if k2 = k then some v else assocGet rest k

/-- Association-list view of HashMap::insert / in-place get_mut update:
replaces the value at the key, appends when the key is absent. -/
def assocPut {β : Type} : List (String × β) → String → β → List (String × β)
  | [], k, v => [(k, v)]
  | (k2, v2) :: rest, k, v =>
      if k2 = k then (k2, v) :: rest else (k2, v2) :: assocPut rest k v

/-- The whole in-memory node: src/channel.rs ChannelManager (its channel
table and per-channel commitment lists) together with its KeyManager and
the Database contents. -/
structure SystemState where
  km : KeyManager
  channels : List (String × PaymentChannel)
  commitment_txs : List (String × List CommitmentTransaction)
  db : Database
deriving DecidableEq

/-- The externals consumed by one open_channel call: the two fresh UUIDs,
the dashes-removed UUID hex used by the libp2p dummy-address branch, the
clock, and whether the save_channel INSERT succeeds. -/
structure OpenOracle where
  channel_uuid : String
  funding_uuid : String
  dummy_uuid_hex : String
  now : Nat
  db_save_ok : Bool
deriving DecidableEq

/-- src/channel.rs ChannelManager::open_channel. -/
def open_channel (st : SystemState) (peer_node_id : String) (capacity : Nat)
    (o : OpenOracle) : Except ChError PaymentChannel × SystemState :=
  let channel_id := o.channel_uuid
  let funding_txid := "funding_" ++ o.funding_uuid
  let multisigResult : Except ChError String :=
    if strStartsWith peer_node_id "12D3" then
      let uuid_hex := o.dummy_uuid_hex
      let addr_hash := if 20 ≤ strLen uuid_hex then strTake uuid_hex 20 else uuid_hex
      .ok ("bcrt1q" ++ addr_hash)
    else
      match hexDecode peer_node_id with
      | some decoded =>
        match PublicKey.from_slice decoded with
        | some peer_pubkey => .ok (st.km.create_multisig_address peer_pubkey)
        | none => .error .invalidPubkeyFormat
      | none => .error .invalidHexEncoding
  match multisigResult with
  | .error e => (.error e, st)
  | .ok multisig_address =>
    let channel : PaymentChannel :=
      { id := channel_id
        peer_node_id := peer_node_id
        funding_txid := funding_txid
        capacity := capacity
        my_balance := capacity / 2
        peer_balance := capacity / 2
        sequence_number := 0
        is_open := true
        created_at := o.now
        multisig_address := multisig_address }
    if o.db_save_ok then
      (.ok channel,
       { st with db := st.db.save_channel channel
                 channels := assocPut st.channels channel_id channel
                 commitment_txs := assocPut st.commitment_txs channel_id [] })
    else (.error .dbError, st)

/-- The canonical commitment encoding of create_commitment_transaction
(the JSON-shaped format string of src/channel.rs, braces escaped). -/
def rawTx (ch : PaymentChannel) : String :=
  "\x7b\"version\":2,\"inputs\":[\x7b\"txid\":\"" ++ ch.funding_txid ++
  "\",\"vout\":0\x7d],\"outputs\":[\x7b\"amount\":" ++ toString ch.my_balance ++
  ",\"address\":\"my_address\"\x7d,\x7b\"amount\":" ++ toString ch.peer_balance ++
  ",\"address\":\"peer_address\"\x7d],\"sequence\":" ++
  toString ch.sequence_number ++ "\x7d"

/-- hex::encode of Signature::serialize_compact, abstracted to an injective
rendering of the symbolic signature. -/
def sigCompactHex (s : Signature) : String :=
  "sig_" ++ toString s.signer ++ "_" ++ toString s.digest

/-- src/channel.rs ChannelManager::create_commitment_transaction (uuid and
clock passed explicitly). sign_message cannot fail (see above), so neither
can this. -/
def create_commitment_transaction (km : KeyManager) (ch : PaymentChannel)
    (uuid : String) (now : Nat) : CommitmentTransaction :=
  let raw := rawTx ch
  { id := uuid
    channel_id := ch.id
    sequence := ch.sequence_number
    my_balance := ch.my_balance
    peer_balance := ch.peer_balance
    raw_tx := raw
    signature := sigCompactHex (km.sign_message (strBytes raw))
    created_at := now }

/-- Push a commitment onto a channel's in-memory list. The Rust code
unwraps the commitment_txs entry, which open_channel and load_channels
always seed, so the absent-key case (modelled as seeding a fresh list)
is unreachable in program runs. -/
def commitPush (l : List (String × List CommitmentTransaction)) (cid : String)
    (c : CommitmentTransaction) : List (String × List CommitmentTransaction) :=
  match assocGet l cid with
  | some cs => assocPut l cid (cs ++ [c])
  | none => assocPut l cid [c]

/-- The externals consumed by one send_payment call: the commitment and
payment UUIDs, two clock reads, and the success of the three store calls
in program order (save_commitment_transaction, save_payment,
update_channel). -/
structure SendOracle where
  commitment_uuid : String
  payment_uuid : String
  commit_now : Nat
  payment_now : Nat
  db_save_commitment_ok : Bool
  db_save_payment_ok : Bool
  db_update_channel_ok : Bool
deriving DecidableEq

/-- src/channel.rs ChannelManager::send_payment, translated step by step:
the in-memory balance and sequence mutation happens first, and each later
failure returns early with the state as mutated so far (there is no
rollback in the source). -/
def send_payment (st : SystemState) (channel_id : String) (amount : Nat)
    (o : SendOracle) : Except ChError PaymentRecord × SystemState :=
  match assocGet st.channels channel_id with
  | none => (.error .channelNotFound, st)
  | some channel =>
    if channel.is_open = false then (.error .channelNotOpen, st)
    else if channel.my_balance < amount then (.error .insufficientBalance, st)
    else
      let channel2 := { channel with
        my_balance := channel.my_balance - amount
        peer_balance := wadd channel.peer_balance amount
        sequence_number := wadd channel.sequence_number 1 }
      let st1 := { st with channels := assocPut st.channels channel_id channel2 }
      let commitment := create_commitment_transaction st1.km channel2
        o.commitment_uuid o.commit_now
      if o.db_save_commitment_ok = false then (.error .dbError, st1)
      else
        let st2 := { st1 with
          db := st1.db.save_commitment_transaction commitment
          commitment_txs := commitPush st1.commitment_txs channel_id commitment }
        let payment : PaymentRecord :=
          { id := o.payment_uuid
            channel_id := channel_id
            amount := amount
            direction := "outgoing"
            sequence := channel2.sequence_number
            timestamp := o.payment_now
            is_offline := true }
        if o.db_save_payment_ok = false then (.error .dbError, st2)
        else
          let st3 := { st2 with db := st2.db.save_payment payment }
          if o.db_update_channel_ok = false then (.error .dbError, st3)
          else (.ok payment, { st3 with db := st3.db.update_channel channel2 })

/-- The externals consumed by one receive_payment call. -/
structure RecvOracle where
  payment_uuid : String
  payment_now : Nat
  db_save_payment_ok : Bool
  db_update_channel_ok : Bool
deriving DecidableEq

/-- src/channel.rs ChannelManager::receive_payment: note that the source
performs no sequence validation (sequence_number is overwritten with the
argument) and no balance-sufficiency check before the unguarded
peer_balance subtraction, which therefore wraps modulo 2^64. -/
def receive_payment (st : SystemState) (channel_id : String) (amount : Nat)
    (sequence : Nat) (o : RecvOracle) :
    Except ChError PaymentRecord × SystemState :=
  match assocGet st.channels channel_id with
  | none => (.error .channelNotFound, st)
  | some channel =>
    if channel.is_open = false then (.error .channelNotOpen, st)
    else
      let channel2 := { channel with
        peer_balance := wsub channel.peer_balance amount
        my_balance := wadd channel.my_balance amount
        sequence_number := sequence }
      let st1 := { st with channels := assocPut st.channels channel_id channel2 }
      let payment : PaymentRecord :=
        { id := o.payment_uuid
          channel_id := channel_id
          amount := amount
          direction := "incoming"
          sequence := sequence
          timestamp := o.payment_now
          is_offline := true }
      if o.db_save_payment_ok = false then (.error .dbError, st1)
      else
        let st2 := { st1 with db := st1.db.save_payment payment }
        if o.db_update_channel_ok = false then (.error .dbError, st2)
        else (.ok payment, { st2 with db := st2.db.update_channel channel2 })

/-- src/channel.rs ChannelManager::close_channel (dbOk: whether the
update_channel store call succeeds). -/
def close_channel (st : SystemState) (channel_id : String) (dbOk : Bool) :
    Except ChError Unit × SystemState :=
  match assocGet st.channels channel_id with
  | none => (.error .channelNotFound, st)
  | some channel =>
    let channel2 := { channel with is_open := false }
    let st1 := { st with channels := assocPut st.channels channel_id channel2 }
    if dbOk then (.ok (), { st1 with db := st1.db.update_channel channel2 })
    else (.error .dbError, st1)

/-- One externally invokable mutating operation together with its oracle. -/
inductive Op where
  | openCh (peer : String) (capacity : Nat) (o : OpenOracle)
  | send (channel_id : String) (amount : Nat) (o : SendOracle)
  | recv (channel_id : String) (amount : Nat) (sequence : Nat) (o : RecvOracle)
  | close (channel_id : String) (dbOk : Bool)
deriving DecidableEq

/-- The state reached after one operation (its result discarded). -/
def step (st : SystemState) : Op → SystemState
  | .openCh p c o => (open_channel st p c o).2
  | .send cid a o => (send_payment st cid a o).2
  | .recv cid a s o => (receive_payment st cid a s o).2
  | .close cid ok => (close_channel st cid ok).2

/-- The state reached after a sequence of operations. -/
def run (st : SystemState) : List Op → SystemState
  | [] => st
  | op :: ops => run (step st op) ops

/-- Funds conservation as the code actually maintains it: the balance sum
agrees with twice the half-capacity, modulo the u64 wrap. -/
def balancedMod (ch : PaymentChannel) : Prop :=
  (ch.my_balance + ch.peer_balance) % W = (2 * (ch.capacity / 2)) % W

instance balancedModDec (ch : PaymentChannel) : Decidable (balancedMod ch) :=
  inferInstanceAs (Decidable (_ = _))

/-- Every channel in the in-memory table satisfies balancedMod. -/
def invBalanced (st : SystemState) : Prop :=
  ∀ e ∈ st.channels, balancedMod e.2

instance invBalancedDec (st : SystemState) : Decidable (invBalanced st) :=
  inferInstanceAs (Decidable (∀ e ∈ st.channels, balancedMod e.2))

/-- An operation that cannot resurrect channel cid: any operation except an
open_channel whose freshly generated UUID collides with cid (v4 UUIDs are
fresh in program runs). -/
def opKeepsClosed (cid : String) : Op → Prop
  | .openCh _ _ o => o.channel_uuid ≠ cid
  | _ => True

instance opKeepsClosedDec (cid : String) (op : Op) : Decidable (opKeepsClosed cid op) :=
  match op with
  | .openCh _ _ o => inferInstanceAs (Decidable (o.channel_uuid ≠ cid))
  | .send _ _ _ => inferInstanceAs (Decidable True)
  | .recv _ _ _ _ => inferInstanceAs (Decidable True)
  | .close _ _ => inferInstanceAs (Decidable True)

/-- The multisig address produced by a successful open_channel call. -/
def openedAddr (st : SystemState) (p : String) (c : Nat) (o : OpenOracle) :
    Option String :=
  (open_channel st p c o).1.toOption.map (fun ch => ch.multisig_address)

/- Concrete instances used by the evaluation theorems below. -/

def kmA : KeyManager := KeyManager.ofSecret 7

/-- A well-formed hex encoding of a compressed public key (0x02 then 32
bytes), the second accepted peer-identifier form. -/
def peerHexA : String :=
  "02aaaaaaaaaaaaaaaaaaaaaaaaaaaaaaaaaaaaaaaaaaaaaaaaaaaaaaaaaaaaaaaa"

def chA : PaymentChannel :=
  { id := "c", peer_node_id := "p", funding_txid := "f", capacity := 100,
    my_balance := 50, peer_balance := 50, sequence_number := 0,
    is_open := true, created_at := 0, multisig_address := "m" }

def stA : SystemState :=
  { km := kmA, channels := [("c", chA)], commitment_txs := [("c", [])],
    db := { channels := [chA], commitments := [], payments := [] } }

def chClosed : PaymentChannel := { chA with is_open := false }

def stClosed : SystemState :=
  { km := kmA, channels := [("c", chClosed)], commitment_txs := [("c", [])],
    db := { channels := [chClosed], commitments := [], payments := [] } }

def stEmptyA : SystemState :=
  { km := kmA, channels := [], commitment_txs := [],
    db := { channels := [], commitments := [], payments := [] } }

def oRecvA : RecvOracle :=
  { payment_uuid := "pay1", payment_now := 1, db_save_payment_ok := true,
    db_update_channel_ok := true }

def oSendA : SendOracle :=
  { commitment_uuid := "k1", payment_uuid := "pay2", commit_now := 2,
    payment_now := 3, db_save_commitment_ok := true,
    db_save_payment_ok := true, db_update_channel_ok := true }

def oSendB : SendOracle :=
  { oSendA with commitment_uuid := "k2", payment_uuid := "pay3" }

def oSendBadDb : SendOracle := { oSendA with db_save_commitment_ok := false }

def oOpenA : OpenOracle :=
  { channel_uuid := "chan1", funding_uuid := "u1", dummy_uuid_hex := "d1",
    now := 0, db_save_ok := true }

def oOpenC4 : OpenOracle := { oOpenA with channel_uuid := "c" }

def oOpenOv1 : OpenOracle :=
  { channel_uuid := "z1", funding_uuid := "f1",
    dummy_uuid_hex := "aaaaaaaaaaaaaaaaaaaaaaaaaaaaaaaa", now := 0,
    db_save_ok := true }

def oOpenOv2 : OpenOracle :=
  { channel_uuid := "z2", funding_uuid := "f2",
    dummy_uuid_hex := "bbbbbbbbbbbbbbbbbbbbbbbbbbbbbbbb", now := 0,
    db_save_ok := true }

/-- The spec scenario (section 8, property 7): open then pay. -/
def st7a : SystemState := (open_channel stEmptyA peerHexA 100000 oOpenA).2

def st7b : SystemState := (send_payment st7a "chan1" 10000 oSendA).2

/-- A run exercising the missing sequence check: open, pay, receive with a
rewinding sequence number, pay again. -/
def st4a : SystemState := (open_channel stEmptyA peerHexA 100 oOpenC4).2

def st4b : SystemState := (send_payment st4a "c" 10 oSendA).2

def st4c : SystemState := (receive_payment st4b "c" 5 0 oRecvA).2

def st4d : SystemState := (send_payment st4c "c" 10 oSendB).2

/- Association-list facts. -/

theorem assocGet_assocPut_self {β : Type} (l : List (String × β)) (k : String) (v : β) :
    assocGet (assocPut l k v) k = some v := by
  induction l with
  | nil => simp [assocPut, assocGet]
  | cons e rest ih =>
      obtain ⟨k2, v2⟩ := e
      by_cases h : k2 = k
      · simp [assocPut, assocGet, h]
      · simp [assocPut, assocGet, h, ih]

theorem assocGet_assocPut_ne {β : Type} (l : List (String × β)) (k k2 : String) (v : β)
    (h : k ≠ k2) : assocGet (assocPut l k v) k2 = assocGet l k2 := by
  induction l with
  | nil => simp [assocPut, assocGet, h]
  | cons e rest ih =>
      obtain ⟨k3, v3⟩ := e
      by_cases h3 : k3 = k
      · subst h3
        simp [assocPut, assocGet, h]
      · simp only [assocPut, assocGet, if_neg h3]
        split
        · rfl
        · exact ih

theorem mem_assocPut {β : Type} {l : List (String × β)} {k : String} {v : β}
    {e : String × β} (he : e ∈ assocPut l k v) : e = (k, v) ∨ e ∈ l := by
  induction l with
  | nil => simpa [assocPut] using he
  | cons f rest ih =>
      obtain ⟨k2, v2⟩ := f
      by_cases h : k2 = k
      · subst h
        rw [assocPut, if_pos rfl] at he
        rcases List.mem_cons.mp he with h1 | h2
        · exact Or.inl h1
        · exact Or.inr (List.mem_cons_of_mem _ h2)
      · rw [assocPut, if_neg h] at he
        rcases List.mem_cons.mp he with h1 | h2
        · exact Or.inr (h1 ▸ List.mem_cons_self _ _)
        · rcases ih h2 with h3 | h4
          · exact Or.inl h3
          · exact Or.inr (List.mem_cons_of_mem _ h4)

theorem assocGet_mem {β : Type} {l : List (String × β)} {k : String} {v : β}
    (h : assocGet l k = some v) : (k, v) ∈ l := by
  induction l with
  | nil => simp [assocGet] at h
  | cons f rest ih =>
      obtain ⟨k2, v2⟩ := f
      by_cases h2 : k2 = k
      · subst h2
        rw [assocGet, if_pos rfl] at h
        cases h
        exact List.mem_cons_self _ _
      · rw [assocGet, if_neg h2] at h
        exact List.mem_cons_of_mem _ (ih h)

/- Wrapping-arithmetic facts. -/

theorem send_sum_mod (m p a : Nat) (h : a ≤ m) :
    (m - a + wadd p a) % W = (m + p) % W := by
  unfold wadd W
  omega

theorem recv_sum_mod (m p a : Nat) :
    (wadd m a + wsub p a) % W = (m + p) % W := by
  unfold wadd wsub W
  omega

theorem wsub_eval (p a : Nat) (hp : p < W) (ha : a < W) :
    wsub p a = if a ≤ p then p - a else p + (W - a) := by
  unfold wsub W at *
  split <;> omega

/- Shape of each operation's effect on the in-memory channel table. -/

theorem open_channel_state (st : SystemState) (p : String) (c : Nat) (o : OpenOracle) :
    (open_channel st p c o).2.channels = st.channels ∨
    ∃ ch : PaymentChannel,
      (open_channel st p c o).2.channels = assocPut st.channels o.channel_uuid ch ∧
      ch.my_balance = c / 2 ∧ ch.peer_balance = c / 2 ∧ ch.capacity = c ∧
      ch.sequence_number = 0 ∧ ch.is_open = true := by
  unfold open_channel
  dsimp only
  repeat' split
  all_goals try exact Or.inl rfl
  all_goals exact Or.inr ⟨_, rfl, rfl, rfl, rfl, rfl, rfl⟩

theorem send_payment_state (st : SystemState) (cid : String) (a : Nat) (o : SendOracle) :
    (send_payment st cid a o).2.channels = st.channels ∨
    ∃ ch, assocGet st.channels cid = some ch ∧ ch.is_open = true ∧ a ≤ ch.my_balance ∧
      (send_payment st cid a o).2.channels = assocPut st.channels cid
        { ch with my_balance := ch.my_balance - a,
                  peer_balance := wadd ch.peer_balance a,
                  sequence_number := wadd ch.sequence_number 1 } := by
  unfold send_payment
  split
  · exact Or.inl rfl
  · rename_i ch hch
    split
    · exact Or.inl rfl
    · rename_i hopen
      split
      · exact Or.inl rfl
      · rename_i hlt
        refine Or.inr ⟨ch, hch, ?_, Nat.le_of_not_lt hlt, ?_⟩
        · simpa using hopen
        · split
          · rfl
          · split
            · rfl
            · split
              · rfl
              · rfl

theorem receive_payment_state (st : SystemState) (cid : String) (a s : Nat)
    (o : RecvOracle) :
    (receive_payment st cid a s o).2.channels = st.channels ∨
    ∃ ch, assocGet st.channels cid = some ch ∧ ch.is_open = true ∧
      (receive_payment st cid a s o).2.channels = assocPut st.channels cid
        { ch with peer_balance := wsub ch.peer_balance a,
                  my_balance := wadd ch.my_balance a,
                  sequence_number := s } := by
  unfold receive_payment
  split
  · exact Or.inl rfl
  · rename_i ch hch
    split
    · exact Or.inl rfl
    · rename_i hopen
      refine Or.inr ⟨ch, hch, by simpa using hopen, ?_⟩
      split
      · rfl
      · split
        · rfl
        · rfl

theorem close_channel_state (st : SystemState) (cid : String) (dbOk : Bool) :
    (close_channel st cid dbOk).2.channels = st.channels ∨
    ∃ ch, assocGet st.channels cid = some ch ∧
      (close_channel st cid dbOk).2.channels =
        assocPut st.channels cid { ch with is_open := false } := by
  unfold close_channel
  split
  · exact Or.inl rfl
  · rename_i ch hch
    refine Or.inr ⟨ch, hch, ?_⟩
    split
    · rfl
    · rfl

/- Early-failure behavior on closed or underfunded channels. -/

theorem send_payment_not_open (st : SystemState) (cid : String) (ch : PaymentChannel)
    (a : Nat) (o : SendOracle) (hget : assocGet st.channels cid = some ch)
    (hcl : ch.is_open = false) :
    send_payment st cid a o = (.error .channelNotOpen, st) := by
  unfold send_payment
  rw [hget]
  simp [hcl]

theorem receive_payment_not_open (st : SystemState) (cid : String) (ch : PaymentChannel)
    (a s : Nat) (o : RecvOracle) (hget : assocGet st.channels cid = some ch)
    (hcl : ch.is_open = false) :
    receive_payment st cid a s o = (.error .channelNotOpen, st) := by
  unfold receive_payment
  rw [hget]
  simp [hcl]

/- Balance-conservation invariant: preserved by every single step. -/

theorem step_balanced (st : SystemState) (op : Op) (h : invBalanced st) :
    invBalanced (step st op) := by
  have hput : ∀ (l : List (String × PaymentChannel)) (k : String) (ch : PaymentChannel),
      (∀ e ∈ l, balancedMod e.2) → balancedMod ch →
      ∀ e ∈ assocPut l k ch, balancedMod e.2 := by
    intro l k ch hl hch e he
    rcases mem_assocPut he with rfl | he2
    · exact hch
    · exact hl e he2
  cases op with
  | openCh p c o =>
      rcases open_channel_state st p c o with hs | ⟨ch, hs, h1, h2, h3, _, _⟩
      · intro e he
        simp only [step] at he
        rw [hs] at he
        exact h e he
      · intro e he
        simp only [step] at he
        rw [hs] at he
        refine hput st.channels o.channel_uuid ch h ?_ e he
        unfold balancedMod
        rw [h1, h2, h3, two_mul]
  | send cid a o =>
      rcases send_payment_state st cid a o with hs | ⟨ch, hget, _, hle, hs⟩
      · intro e he
        simp only [step] at he
        rw [hs] at he
        exact h e he
      · intro e he
        simp only [step] at he
        rw [hs] at he
        refine hput st.channels cid _ h ?_ e he
        have hb : balancedMod ch := h (cid, ch) (assocGet_mem hget)
        unfold balancedMod at hb ⊢
        dsimp only
        rw [send_sum_mod ch.my_balance ch.peer_balance a hle]
        exact hb
  | recv cid a s o =>
      rcases receive_payment_state st cid a s o with hs | ⟨ch, hget, _, hs⟩
      · intro e he
        simp only [step] at he
        rw [hs] at he
        exact h e he
      · intro e he
        simp only [step] at he
        rw [hs] at he
        refine hput st.channels cid _ h ?_ e he
        have hb : balancedMod ch := h (cid, ch) (assocGet_mem hget)
        unfold balancedMod at hb ⊢
        dsimp only
        rw [recv_sum_mod ch.my_balance ch.peer_balance a]
        exact hb
  | close cid dbOk =>
      rcases close_channel_state st cid dbOk with hs | ⟨ch, hget, hs⟩
      · intro e he
        simp only [step] at he
        rw [hs] at he
        exact h e he
      · intro e he
        simp only [step] at he
        rw [hs] at he
        refine hput st.channels cid _ h ?_ e he
        have hb : balancedMod ch := h (cid, ch) (assocGet_mem hget)
        exact hb

theorem run_balanced (ops : List Op) : ∀ st : SystemState,
    invBalanced st → invBalanced (run st ops) := by
  induction ops with
  | nil => intro st h; exact h
  | cons op rest ih => intro st h; exact ih _ (step_balanced st op h)

/-- Field values of the channel returned by a successful open_channel. -/
theorem open_channel_ok_fields (st : SystemState) (p : String) (c : Nat)
    (o : OpenOracle) (ch : PaymentChannel)
    (hok : (open_channel st p c o).1 = .ok ch) :
    ch.my_balance = c / 2 ∧ ch.peer_balance = c / 2 ∧ ch.capacity = c ∧
    ch.sequence_number = 0 ∧ ch.is_open = true := by
  unfold open_channel at hok
  dsimp only at hok
  repeat' split at hok
  all_goals cases hok
  all_goals exact ⟨rfl, rfl, rfl, rfl, rfl⟩

/- Closed channels stay closed across runs whose opens use fresh UUIDs. -/

theorem step_keeps_closed (st : SystemState) (cid : String) (op : Op)
    (hfresh : opKeepsClosed cid op)
    (h : ∀ ch, assocGet st.channels cid = some ch → ch.is_open = false) :
    ∀ ch, assocGet (step st op).channels cid = some ch → ch.is_open = false := by
  cases op with
  | openCh p c o =>
      rcases open_channel_state st p c o with hs | ⟨ch2, hs, _, _, _, _, _⟩
      · intro ch hc; simp only [step] at hc; rw [hs] at hc; exact h ch hc
      · intro ch hc
        simp only [step] at hc
        rw [hs, assocGet_assocPut_ne _ _ _ _ hfresh] at hc
        exact h ch hc
  | send cid2 a o =>
      rcases send_payment_state st cid2 a o with hs | ⟨ch2, hget, hopen, _, hs⟩
      · intro ch hc; simp only [step] at hc; rw [hs] at hc; exact h ch hc
      · intro ch hc
        simp only [step] at hc
        rw [hs] at hc
        by_cases hk : cid2 = cid
        · subst hk
          rw [h ch2 hget] at hopen
          cases hopen
        · rw [assocGet_assocPut_ne _ _ _ _ hk] at hc
          exact h ch hc
  | recv cid2 a s o =>
      rcases receive_payment_state st cid2 a s o with hs | ⟨ch2, hget, hopen, hs⟩
      · intro ch hc; simp only [step] at hc; rw [hs] at hc; exact h ch hc
      · intro ch hc
        simp only [step] at hc
        rw [hs] at hc
        by_cases hk : cid2 = cid
        · subst hk
          rw [h ch2 hget] at hopen
          cases hopen
        · rw [assocGet_assocPut_ne _ _ _ _ hk] at hc
          exact h ch hc
  | close cid2 dbOk =>
      rcases close_channel_state st cid2 dbOk with hs | ⟨ch2, hget, hs⟩
      · intro ch hc; simp only [step] at hc; rw [hs] at hc; exact h ch hc
      · intro ch hc
        simp only [step] at hc
        rw [hs] at hc
        by_cases hk : cid2 = cid
        · subst hk
          rw [assocGet_assocPut_self] at hc
          cases hc
          rfl
        · rw [assocGet_assocPut_ne _ _ _ _ hk] at hc
          exact h ch hc

theorem run_keeps_closed (ops : List Op) : ∀ st : SystemState, ∀ cid : String,
    (∀ op ∈ ops, opKeepsClosed cid op) →
    (∀ ch, assocGet st.channels cid = some ch → ch.is_open = false) →
    ∀ ch, assocGet (run st ops).channels cid = some ch → ch.is_open = false := by
  induction ops with
  | nil => intro st cid _ h; exact h
  | cons op rest ih =>
      intro st cid hfresh h
      exact ih _ cid (fun x hx => hfresh x (List.mem_cons_of_mem _ hx))
        (step_keeps_closed st cid op (hfresh op (List.mem_cons_self _ _)) h)

/-- A successful close_channel replaces the channel with its closed copy. -/
theorem close_channel_closes (st : SystemState) (cid : String)
    (ch : PaymentChannel) (hget : assocGet st.channels cid = some ch) :
    (close_channel st cid true).2.channels =
      assocPut st.channels cid { ch with is_open := false } := by
  unfold close_channel
  rw [hget]
  simp

/-- C1: the claim fails on the code: receive_payment performs no sequence
validation at all. On a channel with sequence_number = 0, a receive with
sequence = 5 (which is not 0 + 1) does not fail with a sequence-conflict
error: it returns Ok, moves 10 from peer_balance to my_balance and
overwrites sequence_number with 5. -/
theorem c1_receive_has_no_sequence_check :
    ((5 : Nat) ≠ chA.sequence_number + 1) ∧
    (receive_payment stA "c" 10 5 oRecvA).1 =
      .ok { id := "pay1", channel_id := "c", amount := 10,
            direction := "incoming", sequence := 5, timestamp := 1,
            is_offline := true } ∧
    (assocGet (receive_payment stA "c" 10 5 oRecvA).2.channels "c").map
      (fun c => (c.my_balance, c.peer_balance, c.sequence_number)) =
      some (60, 40, 5) := by decide

/-- C3: the claim fails on the code: send_payment mutates the in-memory
balances and sequence first and does not roll back. When the
save_commitment_transaction store call fails, the call returns an error
yet the in-memory channel keeps the mutated 40/60/1 state while the
database still holds the old row — observable to every subsequent
caller. -/
theorem c3_send_payment_not_atomic :
    (send_payment stA "c" 10 oSendBadDb).1 = .error .dbError ∧
    (assocGet (send_payment stA "c" 10 oSendBadDb).2.channels "c").map
      (fun c => (c.my_balance, c.peer_balance, c.sequence_number)) =
      some (40, 60, 1) ∧
    (send_payment stA "c" 10 oSendBadDb).2.db = stA.db := by decide

/-- C4: the claim fails on the code: a successful receive_payment sets
sequence_number to its argument instead of current + 1, so after
open → send (sequence 1) → receive with sequence = 0 (a rewind, not an
increase) → send again, the channel's two commitment snapshots both
carry sequence number 1. -/
theorem c4_sequence_not_monotonic :
    ((assocGet st4b.channels "c").map (fun c => c.sequence_number) = some 1) ∧
    ((receive_payment st4b "c" 5 0 oRecvA).1.toOption.isSome = true) ∧
    ((assocGet st4c.channels "c").map (fun c => c.sequence_number) = some 0) ∧
    ((assocGet st4d.commitment_txs "c").map
      (fun l => l.map (fun t => t.sequence)) = some [1, 1]) := by decide

/-- C5: send_payment with amount strictly greater than my_balance on an
existing open channel fails with the insufficient-balance error and
leaves the whole state (balances, sequence, database) unchanged. -/
theorem c5_insufficient_funds (st : SystemState) (cid : String)
    (ch : PaymentChannel) (a : Nat) (o : SendOracle)
    (hget : assocGet st.channels cid = some ch)
    (hopen : ch.is_open = true) (hlt : ch.my_balance < a) :
    send_payment st cid a o = (.error .insufficientBalance, st) := by
  unfold send_payment
  rw [hget]
  simp [hopen, hlt]

/-- C5 witness: paying 60 from a balance of 50 fails and changes nothing. -/
theorem c5_witness :
    send_payment stA "c" 60 oSendA = (.error .insufficientBalance, stA) :=
  c5_insufficient_funds stA "c" chA 60 oSendA (by decide) (by decide) (by decide)

/-- C2 (amended): after open_channel the returned channel's balances sum to
2 * (capacity / 2) — equal to capacity exactly when capacity is even —
and my_balance + peer_balance ≡ 2 * (capacity / 2) (mod 2^64) is an
invariant of every channel in the table under every sequence of
operations (exact equality can be broken by a wrapping receive). -/
theorem c2_conservation (st : SystemState) (ops : List Op)
    (h : invBalanced st) :
    invBalanced (run st ops) ∧
    (∀ p c o ch, (open_channel st p c o).1 = .ok ch →
      ch.my_balance + ch.peer_balance = 2 * (c / 2)) := by
  refine ⟨run_balanced ops st h, fun p c o ch hok => ?_⟩
  obtain ⟨h1, h2, _, _, _⟩ := open_channel_ok_fields st p c o ch hok
  rw [h1, h2, two_mul]

/-- C2 witness: the invariant holds along a concrete open/pay/receive/close
run. -/
theorem c2_witness :
    invBalanced (run stA
      [Op.send "c" 10 oSendA, Op.recv "c" 5 2 oRecvA, Op.close "c" true]) :=
  (c2_conservation stA
    [Op.send "c" 10 oSendA, Op.recv "c" 5 2 oRecvA, Op.close "c" true]
    (by decide)).1

/-- C2 counterexample: the claim as stated is false. With odd capacity 1 a
successful open_channel yields balances summing to 0 ≠ 1 = capacity, and
a successful receive_payment of 60 against peer_balance 50 wraps the u64
subtraction, leaving the sum at 2^64 + 100 ≠ 100 = capacity. -/
theorem c2_counterexample :
    ((open_channel stEmptyA peerHexA 1 oOpenA).1.toOption.map
      (fun ch => (ch.my_balance + ch.peer_balance, ch.capacity)) =
      some (0, 1)) ∧
    ((receive_payment stA "c" 60 1 oRecvA).1.toOption.isSome = true) ∧
    ((assocGet (receive_payment stA "c" 60 1 oRecvA).2.channels "c").map
      (fun c => c.my_balance + c.peer_balance) = some (W + 100)) ∧
    ((assocGet (receive_payment stA "c" 60 1 oRecvA).2.channels "c").map
      (fun c => c.capacity) = some 100) := by decide

/-- C6: after a successful close_channel the channel's entry is its closed
copy; every subsequent send_payment or receive_payment on it fails with
the channel-not-open error leaving the state unchanged; and along any
further run whose open_channel calls use fresh UUIDs the channel never
becomes open again. -/
theorem c6_close_is_terminal (st : SystemState) (cid : String)
    (ch : PaymentChannel) (hget : assocGet st.channels cid = some ch) :
    (assocGet (close_channel st cid true).2.channels cid =
      some { ch with is_open := false }) ∧
    (∀ a o, send_payment (close_channel st cid true).2 cid a o =
      (.error .channelNotOpen, (close_channel st cid true).2)) ∧
    (∀ a s o, receive_payment (close_channel st cid true).2 cid a s o =
      (.error .channelNotOpen, (close_channel st cid true).2)) ∧
    (∀ ops, (∀ op ∈ ops, opKeepsClosed cid op) →
      ∀ ch2, assocGet (run (close_channel st cid true).2 ops).channels cid =
        some ch2 → ch2.is_open = false) := by
  have hget2 : assocGet (close_channel st cid true).2.channels cid =
      some { ch with is_open := false } := by
    rw [close_channel_closes st cid ch hget, assocGet_assocPut_self]
  refine ⟨hget2,
          fun a o => send_payment_not_open _ cid _ a o hget2 rfl,
          fun a s o => receive_payment_not_open _ cid _ a s o hget2 rfl,
          fun ops hfresh => run_keeps_closed ops _ cid hfresh ?_⟩
  intro ch2 hc
  rw [hget2] at hc
  cases hc
  rfl

/-- C6 witness: closing the concrete channel then paying on it fails with
channel-not-open. -/
theorem c6_witness :
    send_payment (close_channel stA "c" true).2 "c" 5 oSendA =
      (.error .channelNotOpen, (close_channel stA "c" true).2) :=
  (c6_close_is_terminal stA "c" chA (by decide)).2.1 5 oSendA

/-- C7: the spec scenario: open(peer, 100000) yields 50000/50000 with
sequence 0; pay(10000) on it returns an outgoing PaymentRecord of amount
10000 and sequence 1, leaves the channel at 40000/60000 with sequence 1,
and the store holds exactly one payment row for the channel — outgoing,
amount 10000. -/
theorem c7_scenario :
    ((open_channel stEmptyA peerHexA 100000 oOpenA).1.toOption.map
      (fun c => (c.my_balance, c.peer_balance, c.sequence_number)) =
      some (50000, 50000, 0)) ∧
    ((send_payment st7a "chan1" 10000 oSendA).1.toOption.map
      (fun p => (p.amount, p.direction, p.sequence)) =
      some (10000, "outgoing", 1)) ∧
    ((assocGet st7b.channels "chan1").map
      (fun c => (c.my_balance, c.peer_balance, c.sequence_number)) =
      some (40000, 60000, 1)) ∧
    ((st7b.db.get_channel_payments "chan1").map
      (fun p => (p.amount, p.direction)) = [(10000, "outgoing")]) := by decide

/-- C8: signature round-trip over the idealized signature scheme: a message
signed with the own key verifies against the own public key; it fails
against any other public key; and any tampered message fails against the
original signature. verify_signature is a total Bool-valued function, so
it never throws. -/
theorem c8_signature_roundtrip (sk : Nat) (msg : List Nat) :
    ((KeyManager.ofSecret sk).verify_signature msg
      ((KeyManager.ofSecret sk).sign_message msg)
      (KeyManager.ofSecret sk).public_key = true) ∧
    (∀ pk : PubKey, pk ≠ (KeyManager.ofSecret sk).public_key →
      (KeyManager.ofSecret sk).verify_signature msg
        ((KeyManager.ofSecret sk).sign_message msg) pk = false) ∧
    (∀ msg2 : List Nat, msg2 ≠ msg →
      (KeyManager.ofSecret sk).verify_signature msg2
        ((KeyManager.ofSecret sk).sign_message msg)
        (KeyManager.ofSecret sk).public_key = false) := by
  refine ⟨?_, ?_, ?_⟩
  · simp [KeyManager.ofSecret, KeyManager.verify_signature,
          KeyManager.sign_message]
  · intro pk hpk
    simp only [KeyManager.ofSecret, KeyManager.sign_message] at hpk ⊢
    simp [KeyManager.verify_signature, hpk]
  · intro msg2 hmsg
    simp only [KeyManager.ofSecret, KeyManager.sign_message] at hmsg ⊢
    simp [KeyManager.verify_signature, sha256, Ne.symm hmsg]

/-- C8 witness: the three clauses at secret key 1, message [0], foreign key
[9] and tampered message [1]. -/
theorem c8_witness :
    ((KeyManager.ofSecret 1).verify_signature [0]
      ((KeyManager.ofSecret 1).sign_message [0])
      (KeyManager.ofSecret 1).public_key = true) ∧
    ((KeyManager.ofSecret 1).verify_signature [0]
      ((KeyManager.ofSecret 1).sign_message [0]) ⟨[9]⟩ = false) ∧
    ((KeyManager.ofSecret 1).verify_signature [1]
      ((KeyManager.ofSecret 1).sign_message [0])
      (KeyManager.ofSecret 1).public_key = false) := by
  have h := c8_signature_roundtrip 1 [0]
  exact ⟨h.1, h.2.1 ⟨[9]⟩ (by decide), h.2.2 [1] (by decide)⟩

/-- C9 counterexample: the claim fails for the overlay-identifier form:
two open_channel runs with the same peer identifier (and the same key
pairs) but different fresh UUID randomness produce different multisig
addresses, because the 12D3 branch derives the address from a fresh
UUID instead of the key pairs. -/
theorem c9_counterexample :
    openedAddr stEmptyA "12D3KooWpeer" 100 oOpenOv1 =
      some "bcrt1qaaaaaaaaaaaaaaaaaaaa" ∧
    openedAddr stEmptyA "12D3KooWpeer" 100 oOpenOv2 =
      some "bcrt1qbbbbbbbbbbbbbbbbbbbb" ∧
    openedAddr stEmptyA "12D3KooWpeer" 100 oOpenOv1 ≠
      openedAddr stEmptyA "12D3KooWpeer" 100 oOpenOv2 := by decide

/-- C9 (amended): joint-address derivation is deterministic for the
hex-encoded public-key form only: for a fixed local key pair and a fixed
peer identifier not of the overlay (12D3...) form, any two open_channel
runs — regardless of state, capacity or oracle randomness — derive the
same multisig address (or fail identically). -/
theorem c9_hex_form_deterministic (st1 st2 : SystemState) (peer : String)
    (c1 c2 : Nat) (o1 o2 : OpenOracle) (hkm : st1.km = st2.km)
    (hform : strStartsWith peer "12D3" = false)
    (h1 : o1.db_save_ok = true) (h2 : o2.db_save_ok = true) :
    openedAddr st1 peer c1 o1 = openedAddr st2 peer c2 o2 := by
  unfold openedAddr open_channel
  simp only [hform, Bool.false_eq_true, if_false]
  cases hd : hexDecode peer with
  | none => simp [hd]
  | some decoded =>
      cases hp : PublicKey.from_slice decoded with
      | none => simp [hd, hp]
      | some pk => simp [hd, hp, h1, h2, hkm, Except.toOption]

/-- C9 witness: two runs from different states and capacities agree on the
derived address for a hex-form peer key. -/
theorem c9_witness :
    openedAddr stA peerHexA 100 oOpenOv1 =
      openedAddr stClosed peerHexA 200 oOpenOv2 :=
  c9_hex_form_deterministic stA stClosed peerHexA 100 200 oOpenOv1 oOpenOv2
    rfl (by decide) rfl rfl

/-- C10: receive_payment has no balance guard: it succeeds for every
amount, and the unguarded u64 subtraction of peer_balance wraps — the
stored peer_balance is the exact difference only under the unstated
precondition amount ≤ peer_balance, and otherwise becomes
peer_balance + 2^64 - amount. -/
theorem c10_receive_unguarded_subtraction (st : SystemState) (cid : String)
    (ch : PaymentChannel) (a s : Nat) (o : RecvOracle)
    (hget : assocGet st.channels cid = some ch) (hopen : ch.is_open = true)
    (hp1 : o.db_save_payment_ok = true) (hp2 : o.db_update_channel_ok = true)
    (hb : ch.peer_balance < W) (ha : a < W) :
    (receive_payment st cid a s o).1 =
      .ok { id := o.payment_uuid, channel_id := cid, amount := a,
            direction := "incoming", sequence := s,
            timestamp := o.payment_now, is_offline := true } ∧
    assocGet (receive_payment st cid a s o).2.channels cid =
      some { ch with
        my_balance := wadd ch.my_balance a,
        peer_balance := if a ≤ ch.peer_balance then ch.peer_balance - a
                        else ch.peer_balance + (W - a),
        sequence_number := s } := by
  constructor
  · unfold receive_payment
    rw [hget]
    simp [hopen, hp1, hp2]
  · unfold receive_payment
    rw [hget]
    simp [hopen, hp1, hp2, assocGet_assocPut_self,
          wsub_eval ch.peer_balance a hb ha]

/-- C10 witness: receiving 60 against a peer balance of 50 succeeds and
wraps the stored peer_balance to 50 + 2^64 - 60. -/
theorem c10_witness :
    (receive_payment stA "c" 60 1 oRecvA).1 =
      .ok { id := "pay1", channel_id := "c", amount := 60,
            direction := "incoming", sequence := 1, timestamp := 1,
            is_offline := true } ∧
    assocGet (receive_payment stA "c" 60 1 oRecvA).2.channels "c" =
      some { chA with
        my_balance := wadd chA.my_balance 60,
        peer_balance := if 60 ≤ chA.peer_balance then chA.peer_balance - 60
                        else chA.peer_balance + (W - 60),
        sequence_number := 1 } :=
  c10_receive_unguarded_subtraction stA "c" chA 60 1 oRecvA (by decide)
    (by decide) rfl rfl (by decide) (by decide)

end LightningOffline
